import Mathlib

/-!
Verification of `file-checksum-guard` (`main.go`), a two-mode command-line
hook: `store` records the SHA-256 digest of a file's content under a key
derived from the file path, and `verify` compares the current digest with the
recorded one, blocking (exit code 2, JSON reason on stdout) on mismatch and
allowing (fail-open) in every ambiguous or erroring case.

The embedding is shallow and executable:
  * SHA-256 is implemented in full over `Nat` byte lists (`Guard.sha256`),
    matching `crypto/sha256` + `encoding/hex` in the source.
  * The filesystem is an association list from path strings to files, each
    file carrying a `readable` flag (so `os.Stat` can succeed while
    `os.Open`/`os.ReadFile` fails) and its byte content.
  * Go strings are byte sequences; where the source compares a `[]byte` read
    from disk against a `string` (`string(stored) == current`), the model
    compares the byte list against the string's UTF-8 bytes.
  * `main` is modelled by `Guard.runMain`, a pure function from the command
    line arguments, the stdin read/parse outcomes, the decoded JSON payload,
    a timestamp string (the value of `time.Now()`), and the filesystem, to an
    `Outcome` (exit code, stdout, stderr, resulting filesystem).
-/

namespace Guard

/-! ## SHA-256 over byte lists (crypto/sha256) -/

/-- Modulus for 32-bit words. -/
def M32 : Nat := 4294967296

/-- Rotate the 32-bit word `x` right by `n` bit positions. -/
def rotr (n x : Nat) : Nat := ((x >>> n) ||| (x <<< (32 - n))) % M32

/-- Three-way xor. -/
def xor3 (a b c : Nat) : Nat := (a ^^^ b) ^^^ c

/-- Bitwise complement of a 32-bit word. -/
def not32 (x : Nat) : Nat := x ^^^ 4294967295

/-- The eight 32-bit working variables of the SHA-256 compression function. -/
structure H8 where
  a : Nat
  b : Nat
  c : Nat
  d : Nat
  e : Nat
  f : Nat
  g : Nat
  h : Nat
deriving DecidableEq

/-- SHA-256 initial hash value, written in decimal. -/
def initH : H8 :=
  ⟨1779033703, 3144134277, 1013904242, 2773480762,
   1359893119, 2600822924, 528734635, 1541459225⟩

/-- SHA-256 round constants, written in decimal. -/
def K : List Nat :=
  [1116352408, 1899447441, 3049323471, 3921009573,
   961987163, 1508970993, 2453635748, 2870763221,
   3624381080, 310598401, 607225278, 1426881987,
   1925078388, 2162078206, 2614888103, 3248222580,
   3835390401, 4022224774, 264347078, 604807628,
   770255983, 1249150122, 1555081692, 1996064986,
   2554220882, 2821834349, 2952996808, 3210313671,
   3336571891, 3584528711, 113926993, 338241895,
   666307205, 773529912, 1294757372, 1396182291,
   1695183700, 1986661051, 2177026350, 2456956037,
   2730485921, 2820302411, 3259730800, 3345764771,
   3516065817, 3600352804, 4094571909, 275423344,
   430227734, 506948616, 659060556, 883997877,
   958139571, 1322822218, 1537002063, 1747873779,
   1955562222, 2024104815, 2227730452, 2361852424,
   2428436474, 2756734187, 3204031479, 3329325298]

/-- Message-schedule sigma-0. -/
def smallSigma0 (x : Nat) : Nat := xor3 (rotr 7 x) (rotr 18 x) (x >>> 3)

/-- Message-schedule sigma-1. -/
def smallSigma1 (x : Nat) : Nat := xor3 (rotr 17 x) (rotr 19 x) (x >>> 10)

/-- Compression Sigma-0. -/
def bigSigma0 (x : Nat) : Nat := xor3 (rotr 2 x) (rotr 13 x) (rotr 22 x)

/-- Compression Sigma-1. -/
def bigSigma1 (x : Nat) : Nat := xor3 (rotr 6 x) (rotr 11 x) (rotr 25 x)

/-- Extend the 16 message words to the 64-word schedule (`n` remaining steps). -/
def extendW : Nat → List Nat → List Nat
  | 0, w => w
  | n+1, w =>
    let i := w.length
    let nw := (w.getD (i-16) 0 + smallSigma0 (w.getD (i-15) 0) +
               w.getD (i-7) 0 + smallSigma1 (w.getD (i-2) 0)) % M32
    extendW n (w ++ [nw])

/-- One round of the SHA-256 compression function. -/
def round1 (ki wi : Nat) (s : H8) : H8 :=
  let t1 := (s.h + bigSigma1 s.e + ((s.e &&& s.f) ^^^ (not32 s.e &&& s.g)) + ki + wi) % M32
  let t2 := (bigSigma0 s.a + ((s.a &&& s.b) ^^^ (s.a &&& s.c) ^^^ (s.b &&& s.c))) % M32
  ⟨(t1 + t2) % M32, s.a, s.b, s.c, (s.d + t1) % M32, s.e, s.f, s.g⟩

/-- Run the 64 compression rounds over the paired constants and schedule. -/
def rounds : List (Nat × Nat) → H8 → H8
  | [], s => s
  | (ki, wi) :: rest, s => rounds rest (round1 ki wi s)

/-- Add two hash states word-wise modulo `2^32`. -/
def addH (x y : H8) : H8 :=
  ⟨(x.a + y.a) % M32, (x.b + y.b) % M32, (x.c + y.c) % M32, (x.d + y.d) % M32,
   (x.e + y.e) % M32, (x.f + y.f) % M32, (x.g + y.g) % M32, (x.h + y.h) % M32⟩

/-- Four big-endian bytes to one 32-bit word, over a whole chunk. -/
def bytesToWords : List Nat → List Nat
  | b0 :: b1 :: b2 :: b3 :: rest => (((b0 * 256 + b1) * 256 + b2) * 256 + b3) :: bytesToWords rest
  | _ => []

/-- Process one 64-byte chunk. -/
def processChunk (s : H8) (chunk : List Nat) : H8 :=
  let w := extendW 48 (bytesToWords chunk)
  addH s (rounds (K.zip w) s)

/-- SHA-256 padding: a `0x80` byte, zeros to 56 mod 64, then the bit length
big-endian in 8 bytes. -/
def padMsg (m : List Nat) : List Nat :=
  let z := (119 - (m.length % 64)) % 64
  let ml := 8 * m.length
  m ++ [128] ++ List.replicate z 0 ++
    [(ml >>> 56) % 256, (ml >>> 48) % 256, (ml >>> 40) % 256, (ml >>> 32) % 256,
     (ml >>> 24) % 256, (ml >>> 16) % 256, (ml >>> 8) % 256, ml % 256]

/-- Split into 64-byte chunks; the fuel (the list length) always suffices. -/
def chunksAux : Nat → List Nat → List (List Nat)
  | 0, _ => []
  | _, [] => []
  | fuel+1, x :: rest => (x :: rest).take 64 :: chunksAux fuel ((x :: rest).drop 64)

/-- Split a padded message into 64-byte chunks. -/
def chunks64 (l : List Nat) : List (List Nat) := chunksAux l.length l

/-- One 32-bit word as four big-endian bytes. -/
def wordBytes (w : Nat) : List Nat :=
  [(w >>> 24) % 256, (w >>> 16) % 256, (w >>> 8) % 256, w % 256]

/-- A word list as its big-endian byte expansion. -/
def wordsToBytes (ws : List Nat) : List Nat := ws.flatMap wordBytes

/-- SHA-256 of a byte list: the 32 digest bytes, in emission order.
Mirrors `sha256.New` / `io.Copy` / `h.Sum(nil)` in `fileChecksum`. -/
def sha256 (m : List Nat) : List Nat :=
  let fin := (chunks64 (padMsg m)).foldl processChunk initH
  wordsToBytes [fin.a, fin.b, fin.c, fin.d, fin.e, fin.f, fin.g, fin.h]

/-! ## Hex encoding (encoding/hex) and UTF-8 bytes of strings -/

/-- Lower-case hex digit for a nibble. -/
def hexDigitChar (n : Nat) : Char := if n < 10 then Char.ofNat (48 + n) else Char.ofNat (87 + n)

/-- Hex characters of a byte list, two per byte. -/
def hexChars (bs : List Nat) : List Char :=
  bs.flatMap (fun b => [hexDigitChar (b / 16), hexDigitChar (b % 16)])

/-- Mirrors `hex.EncodeToString`. -/
def hexEncode (bs : List Nat) : String := ⟨hexChars bs⟩

/-- UTF-8 encoding of one character (Go strings hold UTF-8 bytes). -/
def utf8Char (c : Char) : List Nat :=
  let n := c.toNat
  if n < 128 then [n]
  else if n < 2048 then [192 + n / 64, 128 + n % 64]
  else if n < 65536 then [224 + n / 4096, 128 + (n / 64) % 64, 128 + n % 64]
  else [240 + n / 262144, 128 + (n / 4096) % 64, 128 + (n / 64) % 64, 128 + n % 64]

/-- The bytes of a Go string: its UTF-8 encoding (`[]byte(s)`). -/
def utf8Bytes (s : String) : List Nat := s.data.flatMap utf8Char

/-! ## Filesystem model

An association list from paths to files.  A file records whether it can be
opened for reading (`readable`) together with its byte content, so that
`os.Stat` success (the entry exists) is separate from `os.Open`/`os.ReadFile`
success (the entry exists and is readable) — the source treats those two
failures differently.  Directories are not modelled: `os.MkdirAll` in `main`
creates only the storage directory and touches no record file. -/

/-- One file: openability plus byte content. -/
structure FileEnt where
  readable : Bool
  content : List Nat
deriving DecidableEq

/-- The filesystem: paths mapped to files. -/
abbrev FS := List (String × FileEnt)

/-- Look a path up in the filesystem. -/
def lookupFS : FS → String → Option FileEnt
  | [], _ => none
  | (k, f) :: rest, p => if k = p then some f else lookupFS rest p

/-- Mirrors `os.Stat` success: the path names an existing file. -/
def osStat (fs : FS) (p : String) : Bool := (lookupFS fs p).isSome

/-- Mirrors `os.ReadFile` / `os.Open`+read: the full content, or `none` when
the file is missing or unreadable. -/
def osReadFile (fs : FS) (p : String) : Option (List Nat) :=
  match lookupFS fs p with
  | some f => if f.readable then some f.content else none
  | none => none

/-- Mirrors `os.WriteFile`: create or truncate-and-overwrite, in place. -/
def osWriteFile : FS → String → List Nat → FS
  | [], p, v => [(p, ⟨true, v⟩)]
  | (k, f) :: rest, p, v =>
    if k = p then (p, ⟨true, v⟩) :: rest else (k, f) :: osWriteFile rest p v

/-- Mirrors open with `O_APPEND|O_CREATE|O_WRONLY` plus a write. -/
def osAppendFile (fs : FS) (p : String) (v : List Nat) : FS :=
  match lookupFS fs p with
  | some f => osWriteFile fs p (f.content ++ v)
  | none => osWriteFile fs p v

/-! ## The program (main.go) -/

/-- The fixed storage directory (`checksumDir`). -/
def checksumDir : String := "/tmp/claude-file-checksums"

/-- Go `fileChecksum`: hex SHA-256 of the file's bytes, `none` on read error. -/
def fileChecksum (fs : FS) (path : String) : Option String :=
  (osReadFile fs path).map (fun bytes => hexEncode (sha256 bytes))

/-- Go `checksumKeyPath`: hashes the file *path* itself to produce a safe flat
filename inside `checksumDir` (`filepath.Join` of the absolute directory with
the 64-character hex name is concatenation with one separator). -/
def checksumKeyPath (filePath : String) : String :=
  checksumDir ++ "/" ++ hexEncode (sha256 (utf8Bytes filePath))

/-- Go `logAccessPath`. -/
def logAccessPath (filePath : String) : String := checksumKeyPath filePath ++ ".log"

/-- Left-justified `%-6s` formatting of the action name. -/
def padAction (s : String) : String := s ++ ⟨List.replicate (6 - s.length) ' '⟩

/-- The log line written by `logAccess` (`now` is the formatted `time.Now()`). -/
def logEntry (now action toolName matchStatus filePath : String) : String :=
  now ++ "  " ++ padAction action ++ "  tool=" ++ toolName ++
    "  hash=" ++ matchStatus ++ "  file=" ++ filePath ++ "\n"

/-- Go `logAccess`: best-effort append of one line to the sibling `.log` file.
The source swallows open errors; the model's append always succeeds, which
only makes the frame obligations on the checksum records stronger. -/
def logAccess (fs : FS) (now filePath action toolName matchStatus : String) : FS :=
  osAppendFile fs (logAccessPath filePath) (utf8Bytes (logEntry now action toolName matchStatus filePath))

/-- Go `compareWithStored`: current-hash status against the stored record.
Go compares `string(stored) == current`; strings are byte sequences, so that
is byte equality of `stored` with `current`'s UTF-8 bytes. -/
def compareWithStored (fs : FS) (filePath : String) : String × String :=
  match fileChecksum fs filePath with
  | none => ("error", "")
  | some current =>
    match osReadFile fs (checksumKeyPath filePath) with
    | none => ("new", current)
    | some stored =>
      if stored = utf8Bytes current then ("match", current) else ("mismatch", current)

/-- Go `store`: no-op success when the file does not exist, error when it
exists but cannot be read, otherwise overwrite the record at the derived key
with the hex digest's bytes. -/
def store (fs : FS) (filePath : String) : Except Unit FS :=
  if osStat fs filePath = false then .ok fs
  else
    match fileChecksum fs filePath with
    | none => .error ()
    | some sum => .ok (osWriteFile fs (checksumKeyPath filePath) (utf8Bytes sum))

/-- Characters of a path with trailing separators removed. -/
def dropTrailSlash (cs : List Char) : List Char :=
  (cs.reverse.dropWhile (fun c => c = '/')).reverse

/-- The final path component of a separator-trimmed character list. -/
def lastComp (cs : List Char) : List Char :=
  (cs.reverse.takeWhile (fun c => c ≠ '/')).reverse

/-- Go `filepath.Base`: "." for the empty path, "/" for an all-separator path,
otherwise the last element after trailing separators are removed. -/
def baseName (p : String) : String :=
  if p = "" then "."
  else
    let t := dropTrailSlash p.data
    if t = [] then "/" else ⟨lastComp t⟩

/-- The blocking reason built by `fmt.Sprintf` in `verify`. -/
def staleMsg (filePath : String) : String :=
  "STALE FILE: " ++ baseName filePath ++
    " has been modified externally since it was last read. Re-read the file before editing."

/-- Go `verify`: fail-open on missing file, missing record, or unreadable
file; block exactly on a digest mismatch. -/
def verify (fs : FS) (filePath : String) : Bool × String :=
  if osStat fs filePath = false then (false, "")
  else
    match osReadFile fs (checksumKeyPath filePath) with
    | none => (false, "")
    | some stored =>
      match fileChecksum fs filePath with
      | none => (false, "")
      | some current =>
        if stored ≠ utf8Bytes current then (true, staleMsg filePath)
        else (false, "")

/-! ## main: payload resolution, JSON output, and the process outcome -/

/-- Go `ToolInput`; absent JSON fields decode to the empty string. -/
structure ToolInput where
  filePath : String
  relativePath : String
deriving DecidableEq

/-- Go `HookPayload`. -/
structure HookPayload where
  toolName : String
  toolInput : ToolInput
  cwd : String
deriving DecidableEq

/-- Models `filepath.Join` on two components: concatenation with one
separator.  Go additionally runs `filepath.Clean` on the result; that lexical
cleanup is not modelled — only emptiness of the result matters here, and
`Join` is empty exactly when both components are. -/
def filepathJoin (a b : String) : String :=
  if a = "" then b
  else if b = "" then a
  else a ++ "/" ++ b

/-- The file-path resolution of `main`: the direct `file_path` field, or else
`relative_path` joined onto `cwd` when the latter is non-empty. -/
def resolvePath (p : HookPayload) : String :=
  if p.toolInput.filePath = "" ∧ p.toolInput.relativePath ≠ "" then
    filepathJoin p.cwd p.toolInput.relativePath
  else p.toolInput.filePath

/-- JSON string escaping of one character as `encoding/json` emits it. -/
def jsonEscapeChar (c : Char) : List Char :=
  if c = '"' then ['\\', '"']
  else if c = '\\' then ['\\', '\\']
  else if c = '\n' then ['\\', 'n']
  else if c = '\r' then ['\\', 'r']
  else if c = '\t' then ['\\', 't']
  else if c = '<' then '\\' :: 'u' :: '0' :: '0' :: '3' :: ['c']
  else if c = '>' then '\\' :: 'u' :: '0' :: '0' :: '3' :: ['e']
  else if c = '&' then '\\' :: 'u' :: '0' :: '0' :: '2' :: ['6']
  else if c.toNat < 32 then '\\' :: 'u' :: '0' :: '0' :: [hexDigitChar (c.toNat / 16), hexDigitChar (c.toNat % 16)]
  else [c]

/-- JSON string escaping as `encoding/json` performs it. -/
def jsonEscape (s : String) : String := ⟨s.data.flatMap jsonEscapeChar⟩

/-- Mirrors `json.Marshal(BlockResponse\x7bReason: reason\x7d)`. -/
def marshalBlockResponse (reason : String) : String :=
  "\x7b\"reason\":\"" ++ jsonEscape reason ++ "\"\x7d"

/-- The observable result of one process run: exit code, standard output,
standard error, and the final filesystem. -/
structure Outcome where
  exitCode : Nat
  stdout : String
  stderr : String
  fs : FS
deriving DecidableEq

/-- The `case "store"` arm of `main`'s switch: status for the log, then
store (exiting 1 on error, before the log write), then the log line. -/
def storeAction (fs : FS) (filePath now toolName : String) : Outcome :=
  let status := (compareWithStored fs filePath).1
  match store fs filePath with
  | .error _ => ⟨1, "", "store error\n", fs⟩
  | .ok fs1 => ⟨0, "", "", logAccess fs1 now filePath "store" toolName status⟩

/-- The `case "verify"` arm of `main`'s switch: status for the log, the log
line, then the verify decision — exit 2 with the JSON reason on stdout when
blocked, exit 0 silently otherwise. -/
def verifyAction (fs : FS) (filePath now toolName : String) : Outcome :=
  let status := (compareWithStored fs filePath).1
  let fs1 := logAccess fs now filePath "verify" toolName status
  let r := verify fs1 filePath
  if r.1 then ⟨2, marshalBlockResponse r.2 ++ "\n", "", fs1⟩
  else ⟨0, "", "", fs1⟩

/-- Go `main`, as a pure function.  `args` is `os.Args` (program name
included); `stdinOk` is whether `io.ReadAll(os.Stdin)` succeeds, `parseOk`
whether `json.Unmarshal` succeeds, and `payload` the decoded payload when it
does; `now` is the formatted `time.Now()` consumed by `logAccess`.  The
`os.MkdirAll(checksumDir)` call creates only the storage directory and is not
represented in the file map. -/
def runMain (args : List String) (stdinOk parseOk : Bool) (payload : HookPayload)
    (now : String) (fs : FS) : Outcome :=
  if args.length < 2 then ⟨1, "", "usage: file-checksum-guard <verify|store>\n", fs⟩
  else if stdinOk = false then ⟨1, "", "failed to read stdin\n", fs⟩
  else if parseOk = false then ⟨1, "", "failed to parse JSON\n", fs⟩
  else if resolvePath payload = "" then ⟨0, "", "", fs⟩
  else if args.getD 1 "" = "store" then storeAction fs (resolvePath payload) now payload.toolName
  else if args.getD 1 "" = "verify" then verifyAction fs (resolvePath payload) now payload.toolName
  else ⟨1, "", "unknown action: " ++ args.getD 1 "" ++ "\n", fs⟩

/-! ## Concrete fixtures for evaluated instances of the theorems -/

/-- A one-file filesystem: `/w/a.txt` containing the bytes of "hi". -/
def fsHi : FS := [("/w/a.txt", ⟨true, [104, 105]⟩)]

/-- The filesystem `fsHi` after storing the digest of `/w/a.txt`. -/
def fsHiStored : FS :=
  osWriteFile fsHi (checksumKeyPath "/w/a.txt") (utf8Bytes (hexEncode (sha256 [104, 105])))

/-- A one-file filesystem: `/w/b.txt` containing one byte. -/
def fsB : FS := [("/w/b.txt", ⟨true, [104]⟩)]

/-- The filesystem `fsB` after storing the digest of `/w/b.txt`. -/
def fsBStored : FS :=
  osWriteFile fsB (checksumKeyPath "/w/b.txt") (utf8Bytes (hexEncode (sha256 [104])))

/-- A payload carrying no resolvable file path. -/
def emptyPayload : HookPayload := ⟨"Read", ⟨"", ""⟩, "/w"⟩

/-- A payload naming `/w/a.txt` directly. -/
def aPayload : HookPayload := ⟨"Edit", ⟨"/w/a.txt", ""⟩, "/w"⟩

/-- The stored state of `fsHi` with the file's bytes then mutated to "ho":
a state on which `verify` blocks. -/
def fsStale : FS := osWriteFile fsHiStored "/w/a.txt" [104, 111]

/-! ## Lemmas about the filesystem model -/

theorem lookupFS_write_self (fs : FS) (k : String) (v : List Nat) :
    lookupFS (osWriteFile fs k v) k = some ⟨true, v⟩ := by
  induction fs with
  | nil => simp [osWriteFile, lookupFS]
  | cons kv rest ih =>
    obtain ⟨k', f⟩ := kv
    by_cases h : k' = k <;> simp [osWriteFile, lookupFS, h, ih]

theorem lookupFS_write_ne (fs : FS) (k p : String) (v : List Nat) (h : p ≠ k) :
    lookupFS (osWriteFile fs k v) p = lookupFS fs p := by
  have h' : ¬ (k = p) := fun hc => h hc.symm
  induction fs with
  | nil => simp [osWriteFile, lookupFS, h']
  | cons kv rest ih =>
    obtain ⟨k', f⟩ := kv
    by_cases hk : k' = k
    · subst hk
      simp [osWriteFile, lookupFS, h']
    · simp [osWriteFile, lookupFS, hk, ih, h]

theorem write_write_same (fs : FS) (k : String) (v : List Nat) :
    osWriteFile (osWriteFile fs k v) k v = osWriteFile fs k v := by
  induction fs with
  | nil => simp [osWriteFile]
  | cons kv rest ih =>
    obtain ⟨k', f⟩ := kv
    by_cases h : k' = k <;> simp [osWriteFile, h, ih]

theorem lookupFS_append_ne (fs : FS) (k p : String) (v : List Nat) (h : p ≠ k) :
    lookupFS (osAppendFile fs k v) p = lookupFS fs p := by
  unfold osAppendFile
  cases lookupFS fs k <;> simp [lookupFS_write_ne _ _ _ _ h]

/-! ## Structural lemmas about the digest and its encodings -/

theorem wordBytes_lt (w : Nat) : ∀ b ∈ wordBytes w, b < 256 := by
  intro b hb
  simp [wordBytes] at hb
  rcases hb with rfl | rfl | rfl | rfl <;> omega

theorem wordsToBytes_lt (ws : List Nat) : ∀ b ∈ wordsToBytes ws, b < 256 := by
  intro b hb
  simp [wordsToBytes, List.mem_flatMap] at hb
  obtain ⟨w, _, hw⟩ := hb
  exact wordBytes_lt w b hw

/-- Every byte SHA-256 emits is an actual byte. -/
theorem sha256_lt256 (m : List Nat) : ∀ b ∈ sha256 m, b < 256 := by
  intro b hb
  simp only [sha256] at hb
  exact wordsToBytes_lt _ b hb

/-- SHA-256 always emits exactly 32 bytes. -/
theorem sha256_length (m : List Nat) : (sha256 m).length = 32 := by
  simp [sha256, wordsToBytes, wordBytes]

theorem hexChars_length (bs : List Nat) : (hexChars bs).length = 2 * bs.length := by
  induction bs with
  | nil => simp [hexChars]
  | cons b rest ih =>
    simp only [hexChars, List.flatMap_cons] at *
    simp [ih]
    omega

theorem hexEncode_length (bs : List Nat) : (hexEncode bs).length = 2 * bs.length := by
  simp [hexEncode, String.length, hexChars_length]

theorem hexChars_shape (bs : List Nat) (hbs : ∀ b ∈ bs, b < 256) :
    ∀ c ∈ hexChars bs, ∃ n, n < 16 ∧ c = hexDigitChar n := by
  intro c hc
  simp [hexChars, List.mem_flatMap] at hc
  obtain ⟨b, hb, hcb⟩ := hc
  have hblt := hbs b hb
  rcases hcb with rfl | rfl
  · exact ⟨b / 16, by omega, rfl⟩
  · exact ⟨b % 16, by omega, rfl⟩

theorem hexDigitChar_ascii (n : Nat) (h : n < 16) : (hexDigitChar n).toNat < 128 := by
  interval_cases n <;> decide

theorem hexDigitChar_ne_slash (n : Nat) (h : n < 16) : hexDigitChar n ≠ '/' := by
  interval_cases n <;> decide

theorem hexChars_ascii (bs : List Nat) (hbs : ∀ b ∈ bs, b < 256) :
    ∀ c ∈ hexChars bs, c.toNat < 128 := by
  intro c hc
  obtain ⟨n, hn, rfl⟩ := hexChars_shape bs hbs c hc
  exact hexDigitChar_ascii n hn

theorem hexChars_no_slash (bs : List Nat) (hbs : ∀ b ∈ bs, b < 256) :
    ∀ c ∈ hexChars bs, c ≠ '/' := by
  intro c hc
  obtain ⟨n, hn, rfl⟩ := hexChars_shape bs hbs c hc
  exact hexDigitChar_ne_slash n hn

/-! ## UTF-8 is the identity on ASCII data, hence injective there -/

theorem utf8Char_ascii (c : Char) (h : c.toNat < 128) : utf8Char c = [c.toNat] := by
  simp [utf8Char, h]

theorem ascii_flatMap (l : List Char) (h : ∀ c ∈ l, c.toNat < 128) :
    l.flatMap utf8Char = l.map Char.toNat := by
  induction l with
  | nil => rfl
  | cons c rest ih =>
    have hc : c.toNat < 128 := h c (by simp)
    have hrest : ∀ d ∈ rest, d.toNat < 128 := fun d hd => h d (by simp [hd])
    simp [utf8Char_ascii c hc, ih hrest]

theorem char_toNat_inj {a b : Char} (h : a.toNat = b.toNat) : a = b := by
  have hab := congrArg Char.ofNat h
  simpa [Char.ofNat_toNat] using hab

theorem map_toNat_inj (l1 : List Char) : ∀ l2 : List Char,
    l1.map Char.toNat = l2.map Char.toNat → l1 = l2 := by
  induction l1 with
  | nil => intro l2 h; cases l2 <;> simp_all
  | cons a r ih =>
    intro l2 h
    cases l2 with
    | nil => simp_all
    | cons b r2 =>
      simp only [List.map_cons, List.cons.injEq] at h
      rw [char_toNat_inj h.1, ih r2 h.2]

theorem utf8Bytes_inj_ascii (s t : String) (hs : ∀ c ∈ s.data, c.toNat < 128)
    (ht : ∀ c ∈ t.data, c.toNat < 128) (h : utf8Bytes s = utf8Bytes t) : s = t := by
  apply String.ext
  apply map_toNat_inj
  rw [utf8Bytes, utf8Bytes, ascii_flatMap _ hs, ascii_flatMap _ ht] at h
  exact h

/-- Distinct hex digests have distinct byte images on disk. -/
theorem utf8Bytes_hex_ne (x y : List Nat) (hx : ∀ b ∈ x, b < 256) (hy : ∀ b ∈ y, b < 256)
    (h : hexEncode x ≠ hexEncode y) : utf8Bytes (hexEncode x) ≠ utf8Bytes (hexEncode y) := by
  intro hc
  exact h (utf8Bytes_inj_ascii _ _ (hexChars_ascii x hx) (hexChars_ascii y hy) hc)

/-! ## Lemmas about derived keys and the blocking reason -/

theorem checksumDir_length : checksumDir.length = 26 := by decide

theorem checksumKeyPath_length (p : String) : (checksumKeyPath p).length = 91 := by
  simp [checksumKeyPath, String.length_append, hexEncode_length, sha256_length,
    checksumDir_length]
  decide

theorem logAccessPath_length (p : String) : (logAccessPath p).length = 95 := by
  simp [logAccessPath, String.length_append, checksumKeyPath_length]
  decide

theorem checksumKeyPath_ne_logAccessPath (q p : String) :
    checksumKeyPath q ≠ logAccessPath p := by
  intro h
  have hl := congrArg String.length h
  rw [checksumKeyPath_length, logAccessPath_length] at hl
  exact absurd hl (by decide)

/-- Appending a log line never touches any file named by a derived key. -/
theorem lookupFS_logAccess (fs : FS) (now p action tool status q : String) :
    lookupFS (logAccess fs now p action tool status) (checksumKeyPath q) =
      lookupFS fs (checksumKeyPath q) := by
  unfold logAccess
  exact lookupFS_append_ne _ _ _ _ (checksumKeyPath_ne_logAccessPath q p)

theorem staleMsg_ne_empty (p : String) : staleMsg p ≠ "" := by
  intro h
  have hl := congrArg String.length h
  simp [staleMsg, String.length_append] at hl
  exact absurd hl.1.1 (by decide)

/-- A blocked verify carries exactly the stale-file reason. -/
theorem verify_blocked_reason (fs : FS) (p : String) (h : (verify fs p).1 = true) :
    (verify fs p).2 = staleMsg p := by
  unfold verify at h ⊢
  by_cases hstat : osStat fs p = false
  · rw [if_pos hstat] at h
    simp at h
  · rw [if_neg hstat] at h ⊢
    rcases hr : osReadFile fs (checksumKeyPath p) with _ | stored
    · rw [hr] at h
      simp at h
    · rw [hr] at h
      rcases hc : fileChecksum fs p with _ | current
      · rw [hc] at h
        simp at h
      · rw [hc] at h
        by_cases heq : stored = utf8Bytes current
        · simp [heq] at h
        · simp [heq]

/-- After a successful store with the file's content unchanged across the
call, verify allows. -/
theorem verify_after_store (fs fs' : FS) (p : String)
    (hst : store fs p = .ok fs') (hsame : lookupFS fs' p = lookupFS fs p) :
    (verify fs' p).1 = false := by
  unfold store at hst
  by_cases hstat : osStat fs p = false
  · rw [if_pos hstat] at hst
    have hfs : fs = fs' := by cases hst; rfl
    subst hfs
    have hstat' : osStat fs p = false := by
      simpa [osStat, hsame] using hstat
    simp [verify, hstat']
  · rw [if_neg hstat] at hst
    obtain ⟨f, hf⟩ : ∃ f, lookupFS fs p = some f := by
      cases hl : lookupFS fs p
      · simp [osStat, hl] at hstat
      · exact ⟨_, rfl⟩
    cases hr : f.readable
    · have hnone : fileChecksum fs p = none := by
        simp [fileChecksum, osReadFile, hf, hr]
      rw [hnone] at hst
      cases hst
    · have hfc : fileChecksum fs p = some (hexEncode (sha256 f.content)) := by
        simp [fileChecksum, osReadFile, hf, hr]
      rw [hfc] at hst
      have hfs' : fs' = osWriteFile fs (checksumKeyPath p)
          (utf8Bytes (hexEncode (sha256 f.content))) := by cases hst; rfl
      have h1 : lookupFS fs' p = some f := by rw [hsame, hf]
      have hstat' : ¬ (osStat fs' p = false) := by simp [osStat, h1]
      have h2 : osReadFile fs' (checksumKeyPath p) =
          some (utf8Bytes (hexEncode (sha256 f.content))) := by
        rw [hfs']
        simp [osReadFile, lookupFS_write_self]
      have h3 : fileChecksum fs' p = some (hexEncode (sha256 f.content)) := by
        simp [fileChecksum, osReadFile, h1, hr]
      unfold verify
      rw [if_neg hstat', h2, h3]
      simp

/-! ## Outcome-shape lemmas for the two switch arms -/

theorem storeAction_shape (fs : FS) (filePath now toolName : String) :
    ((storeAction fs filePath now toolName).exitCode = 0 ∨
      (storeAction fs filePath now toolName).exitCode = 1) ∧
    (storeAction fs filePath now toolName).stdout = "" := by
  unfold storeAction
  cases store fs filePath <;> simp

theorem verifyAction_shape (fs : FS) (filePath now toolName : String) :
    ((verifyAction fs filePath now toolName).exitCode = 2 ∧
      ∃ r, r ≠ "" ∧
        (verifyAction fs filePath now toolName).stdout = marshalBlockResponse r ++ "\n") ∨
    ((verifyAction fs filePath now toolName).exitCode = 0 ∧
      (verifyAction fs filePath now toolName).stdout = "") := by
  unfold verifyAction
  by_cases hb : (verify (logAccess fs now filePath "verify" toolName
      ((compareWithStored fs filePath).1)) filePath).1 = true
  · left
    have hrsn := verify_blocked_reason _ _ hb
    refine ⟨by simp [hb], (verify (logAccess fs now filePath "verify" toolName
      ((compareWithStored fs filePath).1)) filePath).2, ?_, by simp [hb]⟩
    rw [hrsn]
    exact staleMsg_ne_empty filePath
  · right
    simp only [Bool.not_eq_true] at hb
    simp [hb]

theorem verifyAction_blocked_exit (fs : FS) (filePath now toolName : String)
    (h : (verify (logAccess fs now filePath "verify" toolName
      ((compareWithStored fs filePath).1)) filePath).1 = true) :
    (verifyAction fs filePath now toolName).exitCode = 2 := by
  unfold verifyAction
  simp [h]

theorem verifyAction_fs (fs : FS) (filePath now toolName : String) :
    (verifyAction fs filePath now toolName).fs =
      logAccess fs now filePath "verify" toolName ((compareWithStored fs filePath).1) := by
  unfold verifyAction
  by_cases hb : (verify (logAccess fs now filePath "verify" toolName
      ((compareWithStored fs filePath).1)) filePath).1 = true
  · simp [hb]
  · simp only [Bool.not_eq_true] at hb
    simp [hb]

/-! ## Claim theorems -/

/-- C1: `verify(path)` returns blocked exactly when the file exists, a stored
digest was successfully read at the derived key, the current digest was
successfully computed, and the two differ byte-for-byte; in every other case
— nonexistent file, no readable record, or a failing file read — it returns
not-blocked (fail-open). -/
theorem c1_verify_blocked_iff (fs : FS) (p : String) :
    (verify fs p).1 = true ↔
      osStat fs p = true ∧
        ∃ stored current,
          osReadFile fs (checksumKeyPath p) = some stored ∧
          fileChecksum fs p = some current ∧
          stored ≠ utf8Bytes current := by
  unfold verify
  by_cases hstat : osStat fs p = false
  · simp [hstat]
  · have hstat' : osStat fs p = true := by
      revert hstat
      cases osStat fs p <;> simp
    rw [if_neg hstat]
    rcases hr : osReadFile fs (checksumKeyPath p) with _ | stored
    · simp [hstat', hr]
    · rcases hc : fileChecksum fs p with _ | current
      · simp [hstat', hc]
      · by_cases heq : stored = utf8Bytes current
        · simp [hstat', heq]
        · simp [hstat', heq]

/-- C2: a successful `store(path)` immediately followed by `verify(path)`,
with the file's content unchanged in between (the entry for the path is the
same before and after), yields not-blocked. -/
theorem c2_store_then_verify (fs fs' : FS) (p : String)
    (hst : store fs p = .ok fs') (hsame : lookupFS fs' p = lookupFS fs p) :
    (verify fs' p).1 = false :=
  verify_after_store fs fs' p hst hsame

/-- C5: on a path naming no existing file, `store` succeeds as a no-op —
returning the filesystem unchanged, so no record appears at the derived key —
and `verify` returns not-blocked with an empty reason. -/
theorem c5_missing_file (fs : FS) (p : String) (h : lookupFS fs p = none) :
    store fs p = .ok fs ∧ (verify fs p).1 = false ∧ (verify fs p).2 = "" := by
  have hstat : osStat fs p = false := by simp [osStat, h]
  refine ⟨?_, ?_, ?_⟩ <;> simp [store, verify, hstat]

set_option maxRecDepth 40000 in
/-- C6: `checksumKeyPath` is a pure deterministic function of the path
string — equal paths always map to equal keys — and distinct paths map to
distinct keys (witnessed here on a concrete pair; collision resistance "with
overwhelming probability" is the cryptographic property of SHA-256). -/
theorem c6_deriveKey_deterministic :
    (∀ p q : String, p = q → checksumKeyPath p = checksumKeyPath q) ∧
      checksumKeyPath "a" ≠ checksumKeyPath "b" :=
  ⟨fun _ _ h => h ▸ rfl, by decide⟩

/-- C7: the on-disk record name for a path is the 64-character hex encoding
of the SHA-256 digest of the path's bytes, contains no path separator, and
sits directly inside the storage directory — the path string itself is never
used as a filesystem name. -/
theorem c7_record_name (p : String) :
    checksumKeyPath p = checksumDir ++ "/" ++ hexEncode (sha256 (utf8Bytes p)) ∧
      (hexEncode (sha256 (utf8Bytes p))).length = 64 ∧
      ∀ ch ∈ (hexEncode (sha256 (utf8Bytes p))).data, ch ≠ '/' := by
  refine ⟨rfl, ?_, ?_⟩
  · rw [hexEncode_length, sha256_length]
  · intro ch hch
    exact hexChars_no_slash _ (sha256_lt256 _) ch hch

/-- In a state where the file holds `c'` but the record at the derived key
holds the digest of `c`, with differing digests, verify blocks. -/
theorem verify_stale_state (fs2 : FS) (p : String) (c c' : List Nat)
    (h1 : lookupFS fs2 p = some ⟨true, c'⟩)
    (h2 : lookupFS fs2 (checksumKeyPath p) = some ⟨true, utf8Bytes (hexEncode (sha256 c))⟩)
    (hdiff : hexEncode (sha256 c') ≠ hexEncode (sha256 c)) :
    (verify fs2 p).1 = true := by
  have hstat : ¬ (osStat fs2 p = false) := by simp [osStat, h1]
  have hread : osReadFile fs2 (checksumKeyPath p) =
      some (utf8Bytes (hexEncode (sha256 c))) := by simp [osReadFile, h2]
  have hcur : fileChecksum fs2 p = some (hexEncode (sha256 c')) := by
    simp [fileChecksum, osReadFile, h1]
  have hne : utf8Bytes (hexEncode (sha256 c)) ≠ utf8Bytes (hexEncode (sha256 c')) :=
    utf8Bytes_hex_ne (sha256 c) (sha256 c') (sha256_lt256 c) (sha256_lt256 c')
      (fun h => hdiff h.symm)
  unfold verify
  rw [if_neg hstat, hread, hcur]
  simp [hne]

/-- C3: after a successful `store(path)` of a readable file with content `c`,
mutating the file's bytes to `c'` whose digest differs makes `verify(path)`
block, with a reason string that mentions the file's base name.  The side
condition `p ≠ checksumKeyPath p` states that the file is not its own
checksum record (a path equal to the hex key derived from itself would be a
SHA-256 fixpoint). -/
theorem c3_mutation_blocks (fs fs' : FS) (p : String) (c c' : List Nat)
    (hc : lookupFS fs p = some ⟨true, c⟩)
    (hstore : store fs p = .ok fs')
    (hdiff : hexEncode (sha256 c') ≠ hexEncode (sha256 c))
    (hkey : p ≠ checksumKeyPath p) :
    (verify (osWriteFile fs' p c') p).1 = true ∧
      ∃ s t, (verify (osWriteFile fs' p c') p).2 = s ++ baseName p ++ t := by
  unfold store at hstore
  have hstat : ¬ (osStat fs p = false) := by simp [osStat, hc]
  rw [if_neg hstat] at hstore
  have hfc : fileChecksum fs p = some (hexEncode (sha256 c)) := by
    simp [fileChecksum, osReadFile, hc]
  rw [hfc] at hstore
  cases hstore
  have h1 : lookupFS (osWriteFile (osWriteFile fs (checksumKeyPath p)
      (utf8Bytes (hexEncode (sha256 c)))) p c') p = some ⟨true, c'⟩ :=
    lookupFS_write_self _ p c'
  have h2 : lookupFS (osWriteFile (osWriteFile fs (checksumKeyPath p)
      (utf8Bytes (hexEncode (sha256 c)))) p c') (checksumKeyPath p) =
      some ⟨true, utf8Bytes (hexEncode (sha256 c))⟩ := by
    rw [lookupFS_write_ne _ _ _ _ (fun h => hkey h.symm)]
    exact lookupFS_write_self _ _ _
  have hbl := verify_stale_state _ p c c' h1 h2 hdiff
  refine ⟨hbl, "STALE FILE: ",
    " has been modified externally since it was last read. Re-read the file before editing.",
    ?_⟩
  rw [verify_blocked_reason _ _ hbl]
  rfl

/-- C4: every terminal state of the process exits 0, 1, or 2; an exit with
code 2 happens only on the `verify` action and prints exactly the JSON block
payload with a non-empty reason on standard output; every non-2 exit prints
nothing on standard output; and a `verify` invocation on which the verify
decision blocks does exit with code 2. -/
theorem c4_exit_code_contract (args : List String) (stdinOk parseOk : Bool)
    (payload : HookPayload) (now : String) (fs : FS) :
    (((runMain args stdinOk parseOk payload now fs).exitCode = 0 ∨
      (runMain args stdinOk parseOk payload now fs).exitCode = 1 ∨
      (runMain args stdinOk parseOk payload now fs).exitCode = 2) ∧
    ((runMain args stdinOk parseOk payload now fs).exitCode = 2 →
      args.getD 1 "" = "verify" ∧
        ∃ r, r ≠ "" ∧
          (runMain args stdinOk parseOk payload now fs).stdout =
            marshalBlockResponse r ++ "\n") ∧
    ((runMain args stdinOk parseOk payload now fs).exitCode ≠ 2 →
      (runMain args stdinOk parseOk payload now fs).stdout = "")) ∧
    (2 ≤ args.length → stdinOk = true → parseOk = true →
      resolvePath payload ≠ "" → args.getD 1 "" = "verify" →
      (verify (logAccess fs now (resolvePath payload) "verify" payload.toolName
        ((compareWithStored fs (resolvePath payload)).1)) (resolvePath payload)).1 = true →
      (runMain args stdinOk parseOk payload now fs).exitCode = 2) := by
  constructor
  case right =>
    intro hl hs hp hres hact hb
    unfold runMain
    rw [if_neg (by omega : ¬ args.length < 2)]
    rw [hs, hp]
    rw [if_neg (by decide : ¬ (true = false)), if_neg (by decide : ¬ (true = false))]
    rw [if_neg hres, hact]
    rw [if_neg (by decide : ¬ ("verify" = "store")), if_pos rfl]
    exact verifyAction_blocked_exit fs (resolvePath payload) now payload.toolName hb
  unfold runMain
  by_cases h1 : args.length < 2
  · simp [h1]
  · rw [if_neg h1]
    by_cases h2 : stdinOk = false
    · simp [h2]
    · rw [if_neg h2]
      by_cases h3 : parseOk = false
      · simp [h3]
      · rw [if_neg h3]
        by_cases h4 : resolvePath payload = ""
        · simp [h4]
        · rw [if_neg h4]
          by_cases h5 : args.getD 1 "" = "store"
          · rw [if_pos h5]
            obtain ⟨hec, hout⟩ := storeAction_shape fs (resolvePath payload) now payload.toolName
            refine ⟨?_, ?_, fun _ => hout⟩
            · rcases hec with h | h <;> simp [h]
            · intro habs
              rcases hec with h | h <;> rw [h] at habs <;> simp at habs
          · rw [if_neg h5]
            by_cases h6 : args.getD 1 "" = "verify"
            · rw [if_pos h6]
              rcases verifyAction_shape fs (resolvePath payload) now payload.toolName with
                ⟨hec, r, hr, hout⟩ | ⟨hec, hout⟩
              · refine ⟨Or.inr (Or.inr hec), fun _ => ⟨h6, r, hr, hout⟩, fun habs => absurd hec habs⟩
              · refine ⟨Or.inl hec, ?_, fun _ => hout⟩
                intro habs
                rw [hec] at habs
                simp at habs
            · rw [if_neg h6]
              simp

/-- C9: with a parsed payload carrying neither a direct file path nor a
relative path, the process (whatever the requested action) exits 0 as a
silent no-op: nothing on stdout or stderr, and the filesystem — in
particular every stored record — unchanged. -/
theorem c9_no_path_noop (args : List String) (payload : HookPayload) (now : String) (fs : FS)
    (hlen : 2 ≤ args.length)
    (hf : payload.toolInput.filePath = "")
    (hr : payload.toolInput.relativePath = "") :
    runMain args true true payload now fs = ⟨0, "", "", fs⟩ := by
  have hres : resolvePath payload = "" := by simp [resolvePath, hf, hr]
  unfold runMain
  rw [if_neg (by omega)]
  simp [hres]

/-- C10: a `verify` invocation of the process never creates, modifies, or
deletes any stored checksum record: whatever the outcome (blocked or not),
the entry at every derived key is unchanged.  The only write on the verify
path is the access-log append, whose 95-character file name can never equal a
91-character derived key. -/
theorem c10_verify_frame (args : List String) (stdinOk parseOk : Bool)
    (payload : HookPayload) (now : String) (fs : FS) (q : String)
    (hact : args.getD 1 "" = "verify") :
    lookupFS (runMain args stdinOk parseOk payload now fs).fs (checksumKeyPath q) =
      lookupFS fs (checksumKeyPath q) := by
  unfold runMain
  by_cases h1 : args.length < 2
  · simp [h1]
  · rw [if_neg h1]
    by_cases h2 : stdinOk = false
    · simp [h2]
    · rw [if_neg h2]
      by_cases h3 : parseOk = false
      · simp [h3]
      · rw [if_neg h3]
        by_cases h4 : resolvePath payload = ""
        · simp [h4]
        · rw [if_neg h4, hact]
          rw [if_neg (by decide : ¬ ("verify" = "store")), if_pos rfl]
          rw [verifyAction_fs]
          exact lookupFS_logAccess fs now (resolvePath payload) "verify"
            payload.toolName _ q

/-- C8: a second `store` on a file whose content is unchanged between the
calls overwrites the record with the same value, leaving the filesystem — in
particular the stored record — byte-for-byte unchanged, and a subsequent
`verify` still reports not-blocked. -/
theorem c8_store_idempotent (fs fs' fs'' : FS) (p : String)
    (h1 : store fs p = .ok fs') (hsame : lookupFS fs' p = lookupFS fs p)
    (h2 : store fs' p = .ok fs'') :
    fs'' = fs' ∧ (verify fs'' p).1 = false := by
  have hv := verify_after_store fs fs' p h1 hsame
  have hfs2 : fs'' = fs' := by
    unfold store at h1 h2
    by_cases hstat : osStat fs p = false
    · rw [if_pos hstat] at h1
      injection h1 with h1e
      subst h1e
      rw [if_pos hstat] at h2
      injection h2 with h2e
      subst h2e
      rfl
    · obtain ⟨f, hf⟩ : ∃ f, lookupFS fs p = some f := by
        cases hl : lookupFS fs p
        · simp [osStat, hl] at hstat
        · exact ⟨_, rfl⟩
      cases hrd : f.readable
      · have hnone : fileChecksum fs p = none := by
          simp [fileChecksum, osReadFile, hf, hrd]
        rw [if_neg hstat, hnone] at h1
        cases h1
      · have hfc : fileChecksum fs p = some (hexEncode (sha256 f.content)) := by
          simp [fileChecksum, osReadFile, hf, hrd]
        rw [if_neg hstat, hfc] at h1
        injection h1 with h1e
        subst h1e
        rw [hf] at hsame
        have hstat2 : ¬ (osStat (osWriteFile fs (checksumKeyPath p)
            (utf8Bytes (hexEncode (sha256 f.content)))) p = false) := by
          simp [osStat, hsame]
        have hfc2 : fileChecksum (osWriteFile fs (checksumKeyPath p)
            (utf8Bytes (hexEncode (sha256 f.content)))) p =
            some (hexEncode (sha256 f.content)) := by
          simp [fileChecksum, osReadFile, hsame, hrd]
        rw [if_neg hstat2, hfc2] at h2
        injection h2 with h2e
        subst h2e
        exact write_write_same fs (checksumKeyPath p) _
  exact ⟨hfs2, hfs2 ▸ hv⟩

/-! ## Evaluated instances of the theorems with hypotheses -/

set_option maxRecDepth 1000000

theorem c2_store_then_verify_witness :
    store fsHi "/w/a.txt" = .ok fsHiStored ∧
      lookupFS fsHiStored "/w/a.txt" = lookupFS fsHi "/w/a.txt" ∧
      (verify fsHiStored "/w/a.txt").1 = false :=
  ⟨by rfl, by decide,
    c2_store_then_verify fsHi fsHiStored "/w/a.txt" (by rfl) (by decide)⟩

theorem c3_mutation_blocks_witness :
    lookupFS fsHi "/w/a.txt" = some ⟨true, [104, 105]⟩ ∧
      store fsHi "/w/a.txt" = .ok fsHiStored ∧
      hexEncode (sha256 [104, 111]) ≠ hexEncode (sha256 [104, 105]) ∧
      "/w/a.txt" ≠ checksumKeyPath "/w/a.txt" ∧
      ((verify (osWriteFile fsHiStored "/w/a.txt" [104, 111]) "/w/a.txt").1 = true ∧
        ∃ s t, (verify (osWriteFile fsHiStored "/w/a.txt" [104, 111]) "/w/a.txt").2 =
          s ++ baseName "/w/a.txt" ++ t) :=
  ⟨by decide, by rfl, by decide, by decide,
    c3_mutation_blocks fsHi fsHiStored "/w/a.txt" [104, 105] [104, 111]
      (by decide) (by rfl) (by decide) (by decide)⟩

theorem c4_exit_code_contract_witness :
    2 ≤ (["file-checksum-guard", "verify"] : List String).length ∧
      resolvePath aPayload ≠ "" ∧
      (["file-checksum-guard", "verify"] : List String).getD 1 "" = "verify" ∧
      (verify (logAccess fsStale "t0" (resolvePath aPayload) "verify" aPayload.toolName
        ((compareWithStored fsStale (resolvePath aPayload)).1)) (resolvePath aPayload)).1 = true ∧
      (runMain ["file-checksum-guard", "verify"] true true aPayload "t0" fsStale).exitCode = 2 :=
  ⟨by decide, by decide, rfl, by decide,
    (c4_exit_code_contract ["file-checksum-guard", "verify"] true true aPayload "t0" fsStale).2
      (by decide) rfl rfl (by decide) rfl (by decide)⟩

theorem c5_missing_file_witness :
    lookupFS ([] : FS) "/w/absent.txt" = none ∧
      (store ([] : FS) "/w/absent.txt" = .ok ([] : FS) ∧
        (verify ([] : FS) "/w/absent.txt").1 = false ∧
        (verify ([] : FS) "/w/absent.txt").2 = "") :=
  ⟨rfl, c5_missing_file [] "/w/absent.txt" rfl⟩

theorem c8_store_idempotent_witness :
    store fsB "/w/b.txt" = .ok fsBStored ∧
      lookupFS fsBStored "/w/b.txt" = lookupFS fsB "/w/b.txt" ∧
      store fsBStored "/w/b.txt" = .ok fsBStored ∧
      (fsBStored = fsBStored ∧ (verify fsBStored "/w/b.txt").1 = false) :=
  ⟨by rfl, by decide, by rfl,
    c8_store_idempotent fsB fsBStored fsBStored "/w/b.txt" (by rfl) (by decide) (by rfl)⟩

theorem c9_no_path_noop_witness :
    2 ≤ (["file-checksum-guard", "store"] : List String).length ∧
      emptyPayload.toolInput.filePath = "" ∧
      emptyPayload.toolInput.relativePath = "" ∧
      runMain ["file-checksum-guard", "store"] true true emptyPayload "t0" [] =
        ⟨0, "", "", []⟩ :=
  ⟨by decide, rfl, rfl,
    c9_no_path_noop ["file-checksum-guard", "store"] emptyPayload "t0" []
      (by decide) rfl rfl⟩

theorem c10_verify_frame_witness :
    (["file-checksum-guard", "verify"] : List String).getD 1 "" = "verify" ∧
      lookupFS (runMain ["file-checksum-guard", "verify"] true true aPayload "t0" fsHi).fs
          (checksumKeyPath "/w/other.txt") =
        lookupFS fsHi (checksumKeyPath "/w/other.txt") :=
  ⟨rfl, c10_verify_frame ["file-checksum-guard", "verify"] true true aPayload "t0" fsHi
    "/w/other.txt" rfl⟩

end Guard
